import Mathlib

/-!
Verification of the migration control/session layer of the incus repository.

The definitions below are a shallow embedding of:
  * `cmd/incusd/migrate.go` — `migrationFields` (`send`, `recv`, `disconnect`,
    `sendControl`) and the `Connect` methods of `migrationSourceWs` and
    `migrationSink`;
  * `cmd/incus/publish.go` (provided unnamed) — `cmdPublish.Run`, the
    stop / restart / ephemeral-flag handling around publishing a running
    instance;
  * `internal/server/storage/drivers/interface.go` — the `Driver.MigrationTypes`
    negotiation contract (the matching algorithm itself is modelled from the
    spec, since only the interface declaration is in the provided slice).

Machine details that live outside the provided slice (the `migrationConn`
type with its `WebSocket`, `Secret`, `AcceptIncoming` and `Close` methods)
are modelled from the spec where indicated.
-/

deriving instance DecidableEq for Except

namespace Incus

/-- Lifecycle state of one logical migration connection, per the spec:
pending (secret issued, stream not yet attached), established (stream
attached and upgraded), closed. -/
inductive ConnState
  | pending
  | established
  | closed
deriving DecidableEq, Repr

/-- Modelled from the spec: one entry of the Connection Set (`migrationConn`
in the repository, whose definition is outside the provided slice): a secret
token plus the lifecycle state of its stream. -/
structure MigrationConn where
  secret : String
  state : ConnState
deriving DecidableEq, Repr

/-- Modelled from the spec: `migrationConn.WebSocket` yields a usable
websocket exactly when the stream is attached and upgraded (established);
otherwise it reports an error. -/
def MigrationConn.websocket (c : MigrationConn) : Except String Unit :=
  if c.state = ConnState.established then Except.ok () else Except.error "connection not established"

/-- Modelled from the spec: `migrationConn.Close` is a best-effort close of
the entry regardless of state; it may report a per-connection error (for
example when the entry is already closed) but always leaves the entry
closed. -/
def MigrationConn.close (c : MigrationConn) : MigrationConn × Option String :=
  ({ c with state := ConnState.closed },
   if c.state = ConnState.closed then some "already closed" else none)

/-- Reserved name of the control connection (`api.SecretNameControl`). -/
def secretNameControl : String := "control"

/-- Shared field set of the source and sink migration sessions
(`migrationFields` in `cmd/incusd/migrate.go`); the Connection Set is the
map from connection name to connection, embedded as an association list. -/
structure MigrationFields where
  conns : List (String × MigrationConn)
deriving DecidableEq, Repr

/-- Lookup of `c.conns[name]` on the Go map. -/
def lookupConn (conns : List (String × MigrationConn)) (name : String) : Option MigrationConn :=
  (conns.find? (fun p => p.1 = name)).map (fun p => p.2)

/-- The `c.conns[api.SecretNameControl].WebSocket(ctx)` step shared by
`send`, `recv`, `disconnect` and `sendControl`: an absent or
not-yet-established control entry yields no usable websocket. -/
def controlWebSocket (c : MigrationFields) : Except String Unit :=
  match lookupConn c.conns secretNameControl with
  | none => Except.error "no control connection"
  | some conn => conn.websocket

/-- One write observed on the control stream. -/
inductive ControlWrite
  | message (m : Nat)
  | status (err : Option String)
  | closeMessage
deriving DecidableEq, Repr

/-- Embedding of `migrationFields.send` (migrate.go lines 43-70): under the
control lock, obtain the control websocket — failing with an error wrapping
"Control connection not initialized" when it is unavailable, writing
nothing — then write the framed message (`migration.ProtoSend`, whose own
success is the `protoSendOk` parameter).  The second component records the
writes performed on the control stream. -/
def MigrationFields.send (c : MigrationFields) (m : Nat) (protoSendOk : Bool) :
    Except String Unit × List ControlWrite :=
  match controlWebSocket c with
  | Except.error e => (Except.error ("Control connection not initialized: " ++ e), [])
  | Except.ok _ =>
    if protoSendOk then (Except.ok (), [ControlWrite.message m])
    else (Except.error "protocol send failed", [ControlWrite.message m])

/-- Embedding of `migrationFields.recv` (migrate.go lines 72-79): obtain the
control websocket — failing with an error wrapping "Control connection not
initialized" when it is unavailable — then read one framed message
(`migration.ProtoRecv`, whose success is the `protoRecvOk` parameter).
`recv` never writes to any stream. -/
def MigrationFields.recv (c : MigrationFields) (protoRecvOk : Bool) : Except String Unit :=
  match controlWebSocket c with
  | Except.error e => Except.error ("Control connection not initialized: " ++ e)
  | Except.ok _ =>
    if protoRecvOk then Except.ok () else Except.error "protocol receive failed"

/-- Embedding of `migrationFields.disconnect` (migrate.go lines 81-105):
under the control lock, write a websocket close message on the control
stream when it is available (all errors discarded); then close every
connection in the set, discarding every per-connection close error.  It
returns the new field set plus the control-stream writes; no error is ever
propagated to the caller. -/
def MigrationFields.disconnect (c : MigrationFields) : MigrationFields × List ControlWrite :=
  let writes :=
    match controlWebSocket c with
    | Except.ok _ => [ControlWrite.closeMessage]
    | Except.error _ => []
  ({ conns := c.conns.map (fun p => (p.1, (p.2.close).1)) }, writes)

/-- Embedding of `migrationFields.sendControl` (migrate.go lines 107-120):
under the control lock, write the terminal status message when the control
websocket is available (send errors discarded); afterwards, when `err` is
non-nil, tear the session down via `disconnect`. -/
def MigrationFields.sendControl (c : MigrationFields) (err : Option String) :
    MigrationFields × List ControlWrite :=
  let statusWrites :=
    match controlWebSocket c with
    | Except.ok _ => [ControlWrite.status err]
    | Except.error _ => []
  if err.isSome then
    let d := c.disconnect
    (d.1, statusWrites ++ d.2)
  else
    (c, statusWrites)

/-- Outcome of a `Connect` call on the source or sink session: the HTTP-level
rejections (`badRequest` from `api.StatusErrorf(http.StatusBadRequest, ...)`,
`forbidden` from `api.StatusErrorf(http.StatusForbidden, ...)`), a failure of
the accepted upgrade, or success on the named connection. -/
inductive ConnectResult
  | badRequest (msg : String)
  | forbidden (msg : String)
  | acceptFailed (name : String)
  | ok (name : String)
deriving DecidableEq, Repr

/-- HTTP status code carried by a `Connect` rejection (`api.StatusErrorf`). -/
def ConnectResult.status : ConnectResult → Option Nat
  | ConnectResult.badRequest _ => some 400
  | ConnectResult.forbidden _ => some 403
  | ConnectResult.acceptFailed _ => none
  | ConnectResult.ok _ => none

/-- Marks the named entry of the Connection Set as established
(the successful `conn.AcceptIncoming(r, w)` side effect). -/
def establishConn (name : String) (conns : List (String × MigrationConn)) :
    List (String × MigrationConn) :=
  conns.map (fun p =>
    if p.1 = name then (p.1, { p.2 with state := ConnState.established }) else p)

/-- Shared body of `migrationSourceWs.Connect` (migrate.go lines 159-181) and
`migrationSink.Connect` (migrate.go lines 231-253), which differ only in the
role word of their messages: reject with 400 when no secret is presented;
scan the connections for one whose secret equals the presented secret
exactly, and on a match upgrade it via `AcceptIncoming` (whose mechanical
success is the `acceptOk` parameter, since `migrationConn` is outside the
provided slice), establishing the entry; with no match, reject with 403.
The second component is the resulting Connection Set. -/
def connectUpgrade (role : String) (acceptOk : String → Bool)
    (conns : List (String × MigrationConn)) (incomingSecret : String) :
    ConnectResult × List (String × MigrationConn) :=
  if incomingSecret = "" then
    (ConnectResult.badRequest ("Missing migration " ++ role ++ " secret"), conns)
  else
    match conns.find? (fun p => incomingSecret = p.2.secret) with
    | some p =>
      if acceptOk p.1 then
        (ConnectResult.ok p.1, establishConn p.1 conns)
      else
        (ConnectResult.acceptFailed p.1, conns)
    | none =>
      (ConnectResult.forbidden ("Invalid migration " ++ role ++ " secret"), conns)

/-- Embedding of `migrationSourceWs.Connect`. -/
def sourceWsConnect (acceptOk : String → Bool)
    (conns : List (String × MigrationConn)) (incomingSecret : String) :
    ConnectResult × List (String × MigrationConn) :=
  connectUpgrade "source" acceptOk conns incomingSecret

/-- Embedding of `migrationSink.Connect`. -/
def sinkConnect (acceptOk : String → Bool)
    (conns : List (String × MigrationConn)) (incomingSecret : String) :
    ConnectResult × List (String × MigrationConn) :=
  connectUpgrade "sink" acceptOk conns incomingSecret

/-- Transfer-format descriptor advertised by a storage driver
(`migration.Type` behind `Driver.MigrationTypes` in
`internal/server/storage/drivers/interface.go`): a format identifier plus
its per-format feature flags. -/
structure MigrationType where
  fsType : Nat
  features : List String
deriving DecidableEq, Repr

/-- Modelled from the spec: the negotiation over the two ordered
`MigrationTypes` lists (the matching algorithm is not in the provided slice;
`interface.go` only declares `Driver.MigrationTypes`).  Spec: "the chosen
type must be present in both sides' offered type lists ... ordered by
preference, and the first mutually-supported entry wins; if no entry is
mutually supported the migration is rejected before any payload transfer
begins" with a "no common transfer type" error. -/
def matchTypes (sourceTypes sinkTypes : List MigrationType) : Except String MigrationType :=
  match sourceTypes.find? (fun (t : MigrationType) => decide (t ∈ sinkTypes)) with
  | some t => Except.ok t
  | none => Except.error "No common migration types"

/-- Status-code constant `api.Stopped` of the shared API status codes
(outside the provided slice; the exact numeric value is irrelevant to the
proofs, only that it is fixed and distinct from 0). -/
def apiStopped : Nat := 102

/-- Embedding of `instance.IsSnapshot`: an instance name containing the
snapshot delimiter "/" denotes a snapshot. -/
def isSnapshot (name : String) : Bool := name.toList.contains '/'

/-- State-changing actions `cmdPublish.Run` performs against the server, in
the order they are issued. -/
inductive PubAction
  | clearEphemeral
  | stopInstance
  | startInstance
  | restoreEphemeral
  | createImage
deriving DecidableEq, Repr

/-- Environment of one `cmdPublish.Run` execution: the instance as returned
by the initial `GetInstance`, the `--force` flag, and which of the remote
API calls succeed. -/
structure PubEnv where
  name : String
  statusCode : Nat
  ephemeral : Bool
  force : Bool
  getOk : Bool
  clearOk : Bool
  stopOk : Bool
  restoreOk : Bool
  publishOk : Bool
deriving DecidableEq, Repr

/-- Observable state of the instance being published. -/
structure InstState where
  statusCode : Nat
  ephemeral : Bool
deriving DecidableEq, Repr

/-- Result of a `cmdPublish.Run` execution: the returned error (if any), the
final observable instance state, and the trace of state-changing actions
issued, in order. -/
structure PubOut where
  result : Except String Unit
  state : InstState
  trace : List PubAction
deriving DecidableEq, Repr

/-- The deferred restart registered after a successful stop
(publish.go: `defer func() { req.Action = string(instance.Start); ... }()`):
it is attempted on every later exit path; a successful attempt leaves the
instance running again. -/
def runStartDefer (st : InstState) : InstState × List PubAction :=
  ({ st with statusCode := apiStopped + 1 }, [PubAction.startInstance])

/-- Tail of `cmdPublish.Run` after the stop/ephemeral block: image creation
and the rest of the publish pipeline, abstracted to its success bit; the
deferred actions registered so far run on both its exit paths. -/
def publishPhase (env : PubEnv) (st : InstState) (tr : List PubAction)
    (defers : InstState → InstState × List PubAction) : PubOut :=
  if env.publishOk then
    let d := defers st
    { result := Except.ok (), state := d.1, trace := tr ++ [PubAction.createImage] ++ d.2 }
  else
    let d := defers st
    { result := Except.error "image creation failed", state := d.1, trace := tr ++ d.2 }

/-- Identity finalizer: no deferred restart registered. -/
def noDefer (st : InstState) : InstState × List PubAction := (st, [])

/-- Embedding of `cmdPublish.Run` (provided as `src/unnamed/part_000`,
lines 116-191 plus the publish pipeline abstracted as `publishPhase`): when
the target is not a snapshot, fetch the instance; when it is running and
`--force` was not given, fail with the descriptive error before touching
anything; when forced, clear the ephemeral flag if set, stop the instance
(no restart is scheduled when the stop itself fails), register the deferred
restart, restore the ephemeral flag, then run the publish pipeline; the
deferred restart runs on every exit path reached after it was registered. -/
def publishRun (env : PubEnv) : PubOut :=
  let st0 : InstState := { statusCode := env.statusCode, ephemeral := env.ephemeral }
  if isSnapshot env.name then
    publishPhase env st0 [] noDefer
  else if env.getOk = false then
    { result := Except.error "failed to get instance", state := st0, trace := [] }
  else if env.statusCode ≠ 0 ∧ env.statusCode ≠ apiStopped then
    -- wasRunning
    if env.force = false then
      { result := Except.error "The instance is currently running. Use --force to have it stopped and restarted",
        state := st0, trace := [] }
    else
      -- clear the ephemeral flag so the instance survives the stop
      let cleared : Except String (InstState × List PubAction) :=
        if env.ephemeral then
          if env.clearOk then
            Except.ok ({ st0 with ephemeral := false }, [PubAction.clearEphemeral])
          else
            Except.error "failed to clear ephemeral flag"
        else
          Except.ok (st0, [])
      match cleared with
      | Except.error e => { result := Except.error e, state := st0, trace := [] }
      | Except.ok (st1, tr1) =>
        if env.stopOk then
          let st2 : InstState := { st1 with statusCode := apiStopped }
          let tr2 := tr1 ++ [PubAction.stopInstance]
          -- the deferred restart is registered here, after the successful stop
          if env.ephemeral then
            if env.restoreOk then
              publishPhase env { st2 with ephemeral := true }
                (tr2 ++ [PubAction.restoreEphemeral]) runStartDefer
            else
              let d := runStartDefer st2
              { result := Except.error "failed to restore ephemeral flag",
                state := d.1, trace := tr2 ++ d.2 }
          else
            publishPhase env st2 tr2 runStartDefer
        else
          { result := Except.error "Stopping instance failed!", state := st1, trace := tr1 }
  else
    publishPhase env st0 [] noDefer

/-- Events on the session-wide control lock (`migrationFields.controlLock`)
and the control stream: acquiring the lock, releasing it, and writing one
chunk of the framed message `m` to the stream. -/
inductive WEv
  | acquire
  | release
  | write (m : Nat)
deriving DecidableEq, Repr

/-- Checks an event trace starting from lock-holding state `h`: the lock is
never re-acquired while held or released while free, and every write to the
control stream happens while the lock is held. -/
def guardedFrom : Bool → List WEv → Bool
  | _, [] => true
  | false, WEv.acquire :: r => guardedFrom true r
  | true, WEv.acquire :: _ => false
  | true, WEv.release :: r => guardedFrom false r
  | false, WEv.release :: _ => false
  | h, WEv.write _ :: r => h && guardedFrom h r

/-- Well-locked trace: starts without the lock and every write is guarded. -/
def guarded (l : List WEv) : Bool := guardedFrom false l

/-- Lock/stream event trace of `migrationFields.send` (migrate.go lines
43-70): acquire `controlLock`, then either fail to obtain the control
websocket and release via the deferred unlock without writing, or write the
length-framed message — modelled as two chunks, the length header and the
payload — and release.  `wsOk` is whether the control websocket is
available, `m` the message. -/
def sendLockTrace (wsOk : Bool) (m : Nat) : List WEv :=
  if wsOk then [WEv.acquire, WEv.write m, WEv.write m, WEv.release]
  else [WEv.acquire, WEv.release]

/-- Lock/stream event trace of the control-write section of
`migrationFields.disconnect` (migrate.go lines 81-92): acquire
`controlLock`, write the websocket close message when the control websocket
is available, release.  The subsequent `conn.Close()` loop closes the
underlying connections without writing to the control stream. -/
def disconnectLockTrace (wsOk : Bool) (mc : Nat) : List WEv :=
  if wsOk then [WEv.acquire, WEv.write mc, WEv.release]
  else [WEv.acquire, WEv.release]

/-- Lock/stream event trace of `migrationFields.sendControl` (migrate.go
lines 107-120): acquire `controlLock`, write the terminal status message
(two chunks) when the control websocket is available, release; then, when
`errSome` (a non-nil error is being reported), run `disconnect`, whose
control write takes the lock again. -/
def sendControlLockTrace (wsOk errSome : Bool) (m mc : Nat) : List WEv :=
  (if wsOk then [WEv.acquire, WEv.write m, WEv.write m, WEv.release]
   else [WEv.acquire, WEv.release])
  ++ (if errSome then disconnectLockTrace wsOk mc else [])

/-- State of the control lock shared by any number of goroutines calling
`send` concurrently: per-goroutine queues of messages still to send, and
the current lock holder — goroutine index, message id being written, and
how many chunks of its frame remain — if any. -/
structure LockState where
  queues : Nat → List Nat
  holder : Option (Nat × Nat × Nat)

/-- Interleaving semantics of concurrent `send` calls under `controlLock`:
a goroutine may take the free lock to begin its next message, the holder
may write the next chunk of its frame to the wire (emitting the message id
as output), and the holder may release the lock once its frame is fully
written.  This is exactly the event order of `sendLockTrace` with the lock
semantics of `sync.Mutex`. -/
inductive SendStep : LockState → List Nat → LockState → Prop
  | acquire (qs : Nat → List Nat) (t m : Nat) (rest : List Nat)
      (hq : qs t = m :: rest) :
      SendStep ⟨qs, none⟩ [] ⟨Function.update qs t rest, some (t, m, 2)⟩
  | writeChunk (qs : Nat → List Nat) (t m k : Nat) :
      SendStep ⟨qs, some (t, m, k + 1)⟩ [m] ⟨qs, some (t, m, k)⟩
  | release (qs : Nat → List Nat) (t m : Nat) :
      SendStep ⟨qs, some (t, m, 0)⟩ [] ⟨qs, none⟩

/-- Reflexive-transitive closure of `SendStep`, accumulating the sequence
of chunk writes observed on the wire. -/
inductive SendRun : LockState → LockState → List Nat → Prop
  | refl (s : LockState) : SendRun s s []
  | step (s₁ s₂ s₃ : LockState) (out log : List Nat) :
      SendStep s₁ out s₂ → SendRun s₂ s₃ log → SendRun s₁ s₃ (out ++ log)

/-- No interleaving of frames: wherever two chunk writes carry the same
message id, every chunk written between them carries that id too, so each
frame occupies a contiguous span of the wire. -/
def Contig (l : List Nat) : Prop :=
  ∀ i j k x, i < j → j < k → l.get? i = some x → l.get? k = some x → l.get? j = some x

/-- Message ids still queued have never been written. -/
def QueuedFresh (qs : Nat → List Nat) (log : List Nat) : Prop :=
  ∀ t m, m ∈ qs t → m ∉ log

/-- Message ids are globally distinct across and within the queues. -/
def QueuesOK (qs : Nat → List Nat) : Prop :=
  (∀ t, (qs t).Nodup) ∧ (∀ t₁ t₂ m, m ∈ qs t₁ → m ∈ qs t₂ → t₁ = t₂)

/-- Invariant on the lock holder: its message id is no longer queued, at
most two chunks remain, and either no chunk was written yet and the id is
fresh, or the chunks written so far are the tail of the wire. -/
def HolderInv : Option (Nat × Nat × Nat) → (Nat → List Nat) → List Nat → Prop
  | none, _, _ => True
  | some (_, m, k), qs, log =>
    (∀ t, m ∉ qs t) ∧ k ≤ 2 ∧ (if k = 2 then m ∉ log else log.getLast? = some m)

/-- Inductive invariant of the concurrent-send automaton. -/
def SendInv (s : LockState) (log : List Nat) : Prop :=
  Contig log ∧ QueuedFresh s.queues log ∧ QueuesOK s.queues ∧ HolderInv s.holder s.queues log

/-! Theorems. -/

/-- Helper: after `disconnect`, every entry of the Connection Set is closed. -/
theorem disconnect_closes (c : MigrationFields) :
    ∀ p ∈ (c.disconnect).1.conns, p.2.state = ConnState.closed := by
  intro p hp
  simp only [MigrationFields.disconnect, List.mem_map] at hp
  obtain ⟨q, _, rfl⟩ := hp
  rfl

/-- C7: `disconnect` (the Connection Set's close-all) closes every
connection in the set regardless of its state and propagates no
per-connection close error (its result type carries no error: each entry's
`close` error is discarded), and running it twice in sequence yields the
same fully-closed Connection Set — it is total and idempotent. -/
theorem disconnect_total_idempotent (c : MigrationFields) :
    (∀ p ∈ (c.disconnect).1.conns, p.2.state = ConnState.closed)
    ∧ ((c.disconnect).1.disconnect).1 = (c.disconnect).1 := by
  refine ⟨disconnect_closes c, ?_⟩
  simp [MigrationFields.disconnect, List.map_map, MigrationConn.close, Function.comp]

/-- C1 counterexample: with an established control connection and an
established "fs" data connection, `sendControl nil` (reporting success)
leaves the Connection Set untouched — in particular the "fs" connection is
not torn down, so a terminal status is not always followed by disconnecting
every connection. -/
theorem sendControl_nil_counterexample :
    (MigrationFields.sendControl
        { conns := [("control", { secret := "s1", state := ConnState.established }),
                    ("fs", { secret := "s2", state := ConnState.established })] } none).1
      = { conns := [("control", { secret := "s1", state := ConnState.established }),
                    ("fs", { secret := "s2", state := ConnState.established })] }
    ∧ ¬ (∀ p ∈ (MigrationFields.sendControl
          { conns := [("control", { secret := "s1", state := ConnState.established }),
                      ("fs", { secret := "s2", state := ConnState.established })] } none).1.conns,
          p.2.state = ConnState.closed) := by
  constructor
  · rfl
  · intro h
    have := h ("fs", { secret := "s2", state := ConnState.established }) (by decide)
    exact absurd this (by decide)

/-- C1 (amended): for every err — nil, i.e. success, included — `sendControl
err` sends the terminal status message encoding err over the control
connection, and is then followed by tearing down every connection in the
Connection Set exactly when err is non-nil; on a nil status no disconnect is
triggered and the Connection Set is left untouched. -/
theorem sendControl_teardown_iff_error (c : MigrationFields) (err : Option String)
    (hws : controlWebSocket c = Except.ok ()) :
    ControlWrite.status err ∈ (c.sendControl err).2
    ∧ (err.isSome = true → ∀ p ∈ (c.sendControl err).1.conns, p.2.state = ConnState.closed)
    ∧ (err = none → (c.sendControl err).1 = c) := by
  cases err with
  | none =>
    refine ⟨?_, by simp, fun _ => ?_⟩
    · simp [MigrationFields.sendControl, hws]
    · simp [MigrationFields.sendControl]
  | some e =>
    refine ⟨?_, fun _ => ?_, by simp⟩
    · simp [MigrationFields.sendControl, hws]
    · intro p hp
      have hd : (c.sendControl (some e)).1 = (c.disconnect).1 := by
        simp [MigrationFields.sendControl]
      rw [hd] at hp
      exact disconnect_closes c p hp

/-- C1 witness: the amended theorem applied at a concrete two-connection
session — both a failure and a success status are written on the control
stream; the failure tears the set down, the success leaves it untouched. -/
theorem sendControl_teardown_iff_error_witness :
    ControlWrite.status (some "migration failed") ∈ (MigrationFields.sendControl
        { conns := [("control", { secret := "s1", state := ConnState.established }),
                    ("fs", { secret := "s2", state := ConnState.established })] }
        (some "migration failed")).2
    ∧ (∀ p ∈ (MigrationFields.sendControl
        { conns := [("control", { secret := "s1", state := ConnState.established }),
                    ("fs", { secret := "s2", state := ConnState.established })] }
        (some "migration failed")).1.conns, p.2.state = ConnState.closed)
    ∧ ControlWrite.status none ∈ (MigrationFields.sendControl
        { conns := [("control", { secret := "s1", state := ConnState.established }),
                    ("fs", { secret := "s2", state := ConnState.established })] } none).2
    ∧ (MigrationFields.sendControl
        { conns := [("control", { secret := "s1", state := ConnState.established }),
                    ("fs", { secret := "s2", state := ConnState.established })] } none).1
      = { conns := [("control", { secret := "s1", state := ConnState.established }),
                    ("fs", { secret := "s2", state := ConnState.established })] } :=
  ⟨(sendControl_teardown_iff_error _ (some "migration failed") (by decide)).1,
   (sendControl_teardown_iff_error _ (some "migration failed") (by decide)).2.1 rfl,
   (sendControl_teardown_iff_error _ none (by decide)).1,
   (sendControl_teardown_iff_error _ none (by decide)).2.2 rfl⟩

/-- C10: when the "control" entry yields no usable websocket, `send` returns
an error wrapping "Control connection not initialized" and writes nothing to
any stream, and `recv` returns an error wrapping the same description. -/
theorem send_recv_control_not_initialized (c : MigrationFields) (m : Nat)
    (protoSendOk protoRecvOk : Bool) (e : String)
    (h : controlWebSocket c = Except.error e) :
    (c.send m protoSendOk).1 = Except.error ("Control connection not initialized: " ++ e)
    ∧ (c.send m protoSendOk).2 = []
    ∧ c.recv protoRecvOk = Except.error ("Control connection not initialized: " ++ e) := by
  simp [MigrationFields.send, MigrationFields.recv, h]

/-- C10 witness: the theorem applied to a session whose control connection
is still pending. -/
theorem send_recv_control_not_initialized_witness :
    (MigrationFields.send { conns := [("control", { secret := "s1", state := ConnState.pending })] } 7 true).1
      = Except.error ("Control connection not initialized: " ++ "connection not established")
    ∧ (MigrationFields.send { conns := [("control", { secret := "s1", state := ConnState.pending })] } 7 true).2 = []
    ∧ MigrationFields.recv { conns := [("control", { secret := "s1", state := ConnState.pending })] } true
      = Except.error ("Control connection not initialized: " ++ "connection not established") :=
  send_recv_control_not_initialized _ 7 true true "connection not established" (by decide)

/-- Helper: reduction of `connectUpgrade` for a non-empty presented secret. -/
theorem connectUpgrade_ne_empty (role : String) (acceptOk : String → Bool)
    (conns : List (String × MigrationConn)) (s : String) (h : s ≠ "") :
    connectUpgrade role acceptOk conns s
      = match conns.find? (fun p => decide (s = p.2.secret)) with
        | some p =>
          if acceptOk p.1 then (ConnectResult.ok p.1, establishConn p.1 conns)
          else (ConnectResult.acceptFailed p.1, conns)
        | none => (ConnectResult.forbidden ("Invalid migration " ++ role ++ " secret"), conns) := by
  simp [connectUpgrade, h]

/-- Helper: the scan of `Connect` succeeds on some name iff some registered
connection has exactly the presented secret; with no exact match the result
is the 403 authorization failure and the Connection Set is unchanged. -/
theorem connectUpgrade_secret_exact (role : String)
    (conns : List (String × MigrationConn)) (s : String) (h : s ≠ "") :
    ((∃ n, (connectUpgrade role (fun _ => true) conns s).1 = ConnectResult.ok n) ↔
        ∃ p ∈ conns, p.2.secret = s)
    ∧ ((¬ ∃ p ∈ conns, p.2.secret = s) →
        (connectUpgrade role (fun _ => true) conns s).1
            = ConnectResult.forbidden ("Invalid migration " ++ role ++ " secret")
        ∧ (connectUpgrade role (fun _ => true) conns s).2 = conns) := by
  rw [connectUpgrade_ne_empty role (fun _ => true) conns s h]
  cases hf : conns.find? (fun p => decide (s = p.2.secret)) with
  | none =>
    have hnone : ¬ ∃ p ∈ conns, p.2.secret = s := by
      intro ⟨p, hp, hs⟩
      have := List.find?_eq_none.mp hf p hp
      simp [hs] at this
    refine ⟨⟨fun ⟨n, hn⟩ => absurd hn (by simp), fun hex => absurd hex hnone⟩, fun _ => ⟨rfl, rfl⟩⟩
  | some p =>
    have hs : s = p.2.secret :=
      of_decide_eq_true (@List.find?_some _ (fun q => decide (s = q.2.secret)) p conns hf)
    have hmem : p ∈ conns := List.mem_of_find?_eq_some hf
    refine ⟨⟨fun _ => ⟨p, hmem, hs.symm⟩, fun _ => ⟨p.1, by simp⟩⟩, fun hex => ?_⟩
    exact absurd ⟨p, hmem, hs.symm⟩ hex

/-- C2: for every non-empty presented secret, `Connect` (source and sink
alike, with the upgrade mechanics functional) establishes a connection iff
the presented secret is exactly the secret of some registered connection;
any other string — proper prefixes and suffixes included — yields the
authorization failure and leaves the Connection Set unchanged. -/
theorem connect_secret_exact (conns : List (String × MigrationConn)) (s : String)
    (h : s ≠ "") :
    ((∃ n, (sourceWsConnect (fun _ => true) conns s).1 = ConnectResult.ok n) ↔
        ∃ p ∈ conns, p.2.secret = s)
    ∧ ((¬ ∃ p ∈ conns, p.2.secret = s) →
        (sourceWsConnect (fun _ => true) conns s).1
            = ConnectResult.forbidden "Invalid migration source secret"
        ∧ (sourceWsConnect (fun _ => true) conns s).2 = conns)
    ∧ ((∃ n, (sinkConnect (fun _ => true) conns s).1 = ConnectResult.ok n) ↔
        ∃ p ∈ conns, p.2.secret = s)
    ∧ ((¬ ∃ p ∈ conns, p.2.secret = s) →
        (sinkConnect (fun _ => true) conns s).1
            = ConnectResult.forbidden "Invalid migration sink secret"
        ∧ (sinkConnect (fun _ => true) conns s).2 = conns) :=
  ⟨(connectUpgrade_secret_exact "source" conns s h).1,
   (connectUpgrade_secret_exact "source" conns s h).2,
   (connectUpgrade_secret_exact "sink" conns s h).1,
   (connectUpgrade_secret_exact "sink" conns s h).2⟩

/-- C2 witness: with one registered connection of secret "abc", presenting
the proper prefix "ab" is rejected as forbidden while presenting "abc"
establishes a connection. -/
theorem connect_secret_exact_witness :
    (sourceWsConnect (fun _ => true)
        [("control", { secret := "abc", state := ConnState.pending })] "ab").1
      = ConnectResult.forbidden "Invalid migration source secret"
    ∧ ∃ n, (sourceWsConnect (fun _ => true)
        [("control", { secret := "abc", state := ConnState.pending })] "abc").1
      = ConnectResult.ok n :=
  ⟨((connect_secret_exact
      [("control", { secret := "abc", state := ConnState.pending })] "ab"
      (by decide)).2.1 (by decide)).1,
   (connect_secret_exact
      [("control", { secret := "abc", state := ConnState.pending })] "abc"
      (by decide)).1.mpr
      ⟨("control", { secret := "abc", state := ConnState.pending }), by simp, rfl⟩⟩

/-- Helper: no `Connect` outcome carries HTTP status 404. -/
theorem connectResult_status_ne_404 (r : ConnectResult) : r.status ≠ some 404 := by
  cases r <;> simp [ConnectResult.status]

/-- C3: on either `Connect` endpoint, an empty presented secret yields
status 400, a non-empty secret matching no registered connection yields
status 403, and no outcome ever carries status 404. -/
theorem connect_status_400_403_never_404 (acceptOk : String → Bool)
    (conns : List (String × MigrationConn)) (s : String) :
    ((sourceWsConnect acceptOk conns "").1.status = some 400
      ∧ (sinkConnect acceptOk conns "").1.status = some 400)
    ∧ (s ≠ "" → (∀ p ∈ conns, p.2.secret ≠ s) →
        (sourceWsConnect acceptOk conns s).1.status = some 403
        ∧ (sinkConnect acceptOk conns s).1.status = some 403)
    ∧ ((sourceWsConnect acceptOk conns s).1.status ≠ some 404
      ∧ (sinkConnect acceptOk conns s).1.status ≠ some 404) := by
  refine ⟨⟨?_, ?_⟩, fun hne hnm => ?_, ?_, ?_⟩
  · simp [sourceWsConnect, connectUpgrade, ConnectResult.status]
  · simp [sinkConnect, connectUpgrade, ConnectResult.status]
  · have hf : conns.find? (fun p => decide (s = p.2.secret)) = none := by
      rw [List.find?_eq_none]
      intro p hp
      simp
      exact fun hs => (hnm p hp) hs.symm
    constructor
    · rw [sourceWsConnect, connectUpgrade_ne_empty _ _ _ _ hne, hf]
      rfl
    · rw [sinkConnect, connectUpgrade_ne_empty _ _ _ _ hne, hf]
      rfl
  · exact connectResult_status_ne_404 _
  · exact connectResult_status_ne_404 _

/-- C3 witness: the theorem applied at a concrete Connection Set — empty
secret gives 400 and the non-matching secret "zzz" gives 403, not 404. -/
theorem connect_status_400_403_never_404_witness :
    (sourceWsConnect (fun _ => true)
        [("control", { secret := "abc", state := ConnState.pending })] "").1.status = some 400
    ∧ (sourceWsConnect (fun _ => true)
        [("control", { secret := "abc", state := ConnState.pending })] "zzz").1.status = some 403 :=
  ⟨(connect_status_400_403_never_404 (fun _ => true)
      [("control", { secret := "abc", state := ConnState.pending })] "zzz").1.1,
   ((connect_status_400_403_never_404 (fun _ => true)
      [("control", { secret := "abc", state := ConnState.pending })] "zzz").2.1
      (by decide) (by decide)).1⟩

/-- Helper: a successful `find?` returns the first entry satisfying the
predicate — every strictly earlier entry fails it. -/
theorem find?_first {α : Type} (p : α → Bool) (l : List α) (a : α)
    (h : l.find? p = some a) :
    ∃ i, l.get? i = some a ∧ ∀ j, j < i → ∀ b, l.get? j = some b → p b = false := by
  induction l with
  | nil => simp [List.find?] at h
  | cons x xs ih =>
    by_cases hx : p x = true
    · rw [List.find?_cons_of_pos _ hx] at h
      refine ⟨0, by simpa using h, ?_⟩
      intro j hj
      omega
    · rw [List.find?_cons_of_neg _ hx] at h
      obtain ⟨i, hi, hrest⟩ := ih h
      refine ⟨i + 1, by simpa using hi, ?_⟩
      intro j hj b hb
      cases j with
      | zero =>
        simp at hb
        subst hb
        exact eq_false_of_ne_true hx
      | succ j0 =>
        exact hrest j0 (by omega) b (by simpa using hb)

/-- C4: `matchTypes` — the negotiation over the ordered type lists offered
by source and sink — returns the first entry of the source list that also
appears in the sink list whenever the lists share an entry, and rejects
with the no-common-transfer-type error when they are disjoint. -/
theorem matchTypes_first_common (src snk : List MigrationType) :
    (∀ t, matchTypes src snk = Except.ok t →
        t ∈ snk ∧ ∃ i, src.get? i = some t
          ∧ ∀ j, j < i → ∀ b, src.get? j = some b → b ∉ snk)
    ∧ ((∃ t ∈ src, t ∈ snk) → ∃ t, matchTypes src snk = Except.ok t)
    ∧ ((∀ t ∈ src, t ∉ snk) → matchTypes src snk = Except.error "No common migration types") := by
  refine ⟨fun t ht => ?_, fun hcommon => ?_, fun hdisj => ?_⟩
  · rw [matchTypes] at ht
    cases hf : src.find? (fun (x : MigrationType) => decide (x ∈ snk)) with
    | none => rw [hf] at ht; exact absurd ht (by simp)
    | some u =>
      rw [hf] at ht
      have hu : u = t := by simpa using ht
      subst hu
      have hmem : u ∈ snk :=
        of_decide_eq_true (@List.find?_some _ (fun x => decide (x ∈ snk)) u src hf)
      obtain ⟨i, hi, hrest⟩ := find?_first (fun (x : MigrationType) => decide (x ∈ snk)) src u hf
      exact ⟨hmem, i, hi, fun j hj b hb => by simpa using hrest j hj b hb⟩
  · obtain ⟨t, htsrc, htsnk⟩ := hcommon
    have : (src.find? (fun (x : MigrationType) => decide (x ∈ snk))).isSome := by
      rw [List.find?_isSome]
      exact ⟨t, htsrc, by simpa using htsnk⟩
    rw [matchTypes]
    cases hf : src.find? (fun (x : MigrationType) => decide (x ∈ snk)) with
    | none => rw [hf] at this; simp at this
    | some u => exact ⟨u, rfl⟩
  · rw [matchTypes]
    have hf : src.find? (fun (x : MigrationType) => decide (x ∈ snk)) = none := by
      rw [List.find?_eq_none]
      intro x hx
      simpa using hdisj x hx
    rw [hf]

/-- C4 witness: source list [A, B, C] against sink list [C, B] negotiates B
— the first source entry present in the sink list — and disjoint lists are
rejected with the no-common-transfer-type error. -/
theorem matchTypes_first_common_witness :
    ((⟨1, []⟩ : MigrationType) ∈ ([⟨2, []⟩, ⟨1, []⟩] : List MigrationType)
      ∧ ∃ i, ([⟨0, []⟩, ⟨1, []⟩, ⟨2, []⟩] : List MigrationType).get? i = some ⟨1, []⟩
          ∧ ∀ j, j < i → ∀ b, ([⟨0, []⟩, ⟨1, []⟩, ⟨2, []⟩] : List MigrationType).get? j = some b
              → b ∉ ([⟨2, []⟩, ⟨1, []⟩] : List MigrationType))
    ∧ matchTypes [⟨0, []⟩] [⟨1, []⟩] = Except.error "No common migration types" :=
  ⟨(matchTypes_first_common [⟨0, []⟩, ⟨1, []⟩, ⟨2, []⟩] [⟨2, []⟩, ⟨1, []⟩]).1
      ⟨1, []⟩ (by decide),
   (matchTypes_first_common [⟨0, []⟩] [⟨1, []⟩]).2.2 (by decide)⟩

/-- C9: when the target instance is running and `--force` was not given,
`cmdPublish.Run` fails with the descriptive use-force error before any
state is modified — no action is issued and the instance state (running,
ephemeral flag) is exactly as found. -/
theorem publish_running_noforce_error (env : PubEnv)
    (hsnap : isSnapshot env.name = false) (hget : env.getOk = true)
    (hrun1 : env.statusCode ≠ 0) (hrun2 : env.statusCode ≠ apiStopped)
    (hforce : env.force = false) :
    (publishRun env).result
        = Except.error "The instance is currently running. Use --force to have it stopped and restarted"
    ∧ (publishRun env).trace = []
    ∧ (publishRun env).state = { statusCode := env.statusCode, ephemeral := env.ephemeral } := by
  simp [publishRun, hsnap, hget, hrun1, hrun2, hforce]

/-- C9 witness: the theorem applied to a concrete running instance
published without force. -/
theorem publish_running_noforce_error_witness :
    (publishRun { name := "c1", statusCode := 103, ephemeral := false, force := false,
                  getOk := true, clearOk := true, stopOk := true,
                  restoreOk := true, publishOk := true }).result
        = Except.error "The instance is currently running. Use --force to have it stopped and restarted"
    ∧ (publishRun { name := "c1", statusCode := 103, ephemeral := false, force := false,
                    getOk := true, clearOk := true, stopOk := true,
                    restoreOk := true, publishOk := true }).trace = []
    ∧ (publishRun { name := "c1", statusCode := 103, ephemeral := false, force := false,
                    getOk := true, clearOk := true, stopOk := true,
                    restoreOk := true, publishOk := true }).state
        = { statusCode := 103, ephemeral := false } :=
  publish_running_noforce_error _ (by decide) rfl (by decide) (by decide) rfl

/-- C5: once a running instance has been stopped by a forced publish, every
exit path of `cmdPublish.Run` — success, a failed ephemeral-flag
restoration, or any later failure of the publish pipeline — attempts to
restart the instance via the deferred start. -/
theorem publish_restart_on_exit (env : PubEnv)
    (hsnap : isSnapshot env.name = false) (hget : env.getOk = true)
    (hrun1 : env.statusCode ≠ 0) (hrun2 : env.statusCode ≠ apiStopped)
    (hforce : env.force = true)
    (hclear : env.ephemeral = true → env.clearOk = true)
    (hstop : env.stopOk = true) :
    PubAction.startInstance ∈ (publishRun env).trace := by
  cases heph : env.ephemeral with
  | false =>
    cases hpub : env.publishOk <;>
      simp [publishRun, publishPhase, runStartDefer, hsnap, hget, hrun1, hrun2, hforce,
        heph, hstop, hpub]
  | true =>
    have hclearT := hclear heph
    cases hres : env.restoreOk with
    | false =>
      simp [publishRun, publishPhase, runStartDefer, hsnap, hget, hrun1, hrun2, hforce,
        heph, hclearT, hstop, hres]
    | true =>
      cases hpub : env.publishOk <;>
        simp [publishRun, publishPhase, runStartDefer, hsnap, hget, hrun1, hrun2, hforce,
          heph, hclearT, hstop, hres, hpub]

/-- C5 witness: the theorem applied to a running non-ephemeral instance
whose publish pipeline fails — the restart is still attempted. -/
theorem publish_restart_on_exit_witness :
    PubAction.startInstance ∈ (publishRun
      { name := "c1", statusCode := 103, ephemeral := false, force := true,
        getOk := true, clearOk := true, stopOk := true,
        restoreOk := true, publishOk := false }).trace :=
  publish_restart_on_exit _ (by decide) rfl (by decide) (by decide) rfl (fun h => by simp at h) rfl

/-- C6: when a forced publish stops a running ephemeral instance (the
ephemeral-flag API calls succeeding), the flag is cleared before the stop
is issued and restored to true immediately afterwards — before the publish
pipeline and before the deferred restart — on both the successful and the
failing completion path, and the final observable state carries
ephemeral = true: the flag round-trips. -/
theorem publish_ephemeral_roundtrip (env : PubEnv)
    (hsnap : isSnapshot env.name = false) (hget : env.getOk = true)
    (hrun1 : env.statusCode ≠ 0) (hrun2 : env.statusCode ≠ apiStopped)
    (hforce : env.force = true) (heph : env.ephemeral = true)
    (hclear : env.clearOk = true) (hstop : env.stopOk = true)
    (hrestore : env.restoreOk = true) :
    (publishRun env).state.ephemeral = true
    ∧ (publishRun env).trace.take 3
        = [PubAction.clearEphemeral, PubAction.stopInstance, PubAction.restoreEphemeral] := by
  cases hpub : env.publishOk <;>
    simp [publishRun, publishPhase, runStartDefer, hsnap, hget, hrun1, hrun2, hforce,
      heph, hclear, hstop, hrestore, hpub]

/-- C6 witness: the theorem applied to a running ephemeral instance on the
failing completion path — the flag still round-trips to true. -/
theorem publish_ephemeral_roundtrip_witness :
    (publishRun { name := "c1", statusCode := 103, ephemeral := true, force := true,
                  getOk := true, clearOk := true, stopOk := true,
                  restoreOk := true, publishOk := false }).state.ephemeral = true
    ∧ (publishRun { name := "c1", statusCode := 103, ephemeral := true, force := true,
                    getOk := true, clearOk := true, stopOk := true,
                    restoreOk := true, publishOk := false }).trace.take 3
        = [PubAction.clearEphemeral, PubAction.stopInstance, PubAction.restoreEphemeral] :=
  publish_ephemeral_roundtrip _ (by decide) rfl (by decide) (by decide) rfl rfl rfl rfl rfl

/-- Helper: the empty wire is contiguous. -/
theorem contig_nil : Contig ([] : List Nat) := by
  intro i j k x _ _ hi _
  simp at hi

/-- Helper: inside a contiguous wire ending in `m`, everything from an
occurrence of `m` to the end is `m`. -/
theorem contig_extend_to_last (l : List Nat) (m : Nat) (hc : Contig l)
    (hl : l.getLast? = some m) :
    ∀ i j, i < j → j < l.length → l.get? i = some m → l.get? j = some m := by
  intro i j hij hj hi
  rcases Nat.lt_or_ge j (l.length - 1) with hjl | hjl
  · have hlast : l.get? (l.length - 1) = some m := by
      rw [← List.getLast?_eq_get?]
      exact hl
    exact hc i j (l.length - 1) m hij hjl hi hlast
  · have hje : j = l.length - 1 := by omega
    rw [hje, ← List.getLast?_eq_get?]
    exact hl

/-- Helper: appending one more chunk of the message the wire already ends
with keeps the wire contiguous. -/
theorem contig_append_last (l : List Nat) (m : Nat) (hc : Contig l)
    (hl : l.getLast? = some m) : Contig (l ++ [m]) := by
  intro i j k x hij hjk hi hk
  have hkb : k < l.length + 1 := by
    by_contra hkk
    rw [List.get?_len_le (by simp; omega)] at hk
    exact absurd hk (by simp)
  rcases Nat.lt_or_ge k l.length with hkl | hkl
  · have hi2 : l.get? i = some x := by rw [← List.get?_append (by omega)]; exact hi
    have hk2 : l.get? k = some x := by rw [← List.get?_append hkl]; exact hk
    have hj2 : l.get? j = some x := hc i j k x hij hjk hi2 hk2
    rw [List.get?_append (by omega)]
    exact hj2
  · have hke : k = l.length := by omega
    have hx : x = m := by
      rw [hke, List.get?_concat_length] at hk
      exact (Option.some.inj hk).symm
    subst hx
    have hjl : j < l.length := by omega
    have hi2 : l.get? i = some x := by rw [← List.get?_append (by omega)]; exact hi
    have hj2 : l.get? j = some x := contig_extend_to_last l x hc hl i j hij hjl hi2
    rw [List.get?_append hjl]
    exact hj2

/-- Helper: appending the first chunk of a message that never appeared on
the wire keeps the wire contiguous. -/
theorem contig_append_fresh (l : List Nat) (m : Nat) (hc : Contig l)
    (hm : m ∉ l) : Contig (l ++ [m]) := by
  intro i j k x hij hjk hi hk
  have hkb : k < l.length + 1 := by
    by_contra hkk
    rw [List.get?_len_le (by simp; omega)] at hk
    exact absurd hk (by simp)
  rcases Nat.lt_or_ge k l.length with hkl | hkl
  · have hi2 : l.get? i = some x := by rw [← List.get?_append (by omega)]; exact hi
    have hk2 : l.get? k = some x := by rw [← List.get?_append hkl]; exact hk
    have hj2 : l.get? j = some x := hc i j k x hij hjk hi2 hk2
    rw [List.get?_append (by omega)]
    exact hj2
  · have hke : k = l.length := by omega
    have hx : x = m := by
      rw [hke, List.get?_concat_length] at hk
      exact (Option.some.inj hk).symm
    subst hx
    have hi2 : l.get? i = some x := by rw [← List.get?_append (by omega)]; exact hi
    exact absurd (List.get?_mem hi2) hm

/-- Helper: one automaton step preserves the send invariant, extending the
wire with the chunks the step emits. -/
theorem sendInv_step (s₁ s₂ : LockState) (out log : List Nat)
    (hstep : SendStep s₁ out s₂) (hinv : SendInv s₁ log) :
    SendInv s₂ (log ++ out) := by
  obtain ⟨hcontig, hfresh, hqok, hholder⟩ := hinv
  cases hstep with
  | acquire qs t m rest hq =>
    dsimp only at hfresh hqok hholder
    rw [List.append_nil]
    have hmq : m ∈ qs t := by rw [hq]; exact List.mem_cons_self m rest
    refine ⟨hcontig, ?_, ⟨?_, ?_⟩, ?_, by omega, ?_⟩
    · intro t2 m2 hm2
      by_cases ht2 : t2 = t
      · subst ht2
        simp only [Function.update_same] at hm2
        exact hfresh t2 m2 (by rw [hq]; exact List.mem_cons_of_mem m hm2)
      · simp only [Function.update_noteq ht2] at hm2
        exact hfresh t2 m2 hm2
    · intro t2
      by_cases ht2 : t2 = t
      · subst ht2
        simp only [Function.update_same]
        have := hqok.1 t2
        rw [hq] at this
        exact this.of_cons
      · simp only [Function.update_noteq ht2]
        exact hqok.1 t2
    · intro t1 t2 m2 h1 h2
      have h1o : m2 ∈ qs t1 := by
        by_cases ht1 : t1 = t
        · subst ht1
          simp only [Function.update_same] at h1
          rw [hq]
          exact List.mem_cons_of_mem m h1
        · simp only [Function.update_noteq ht1] at h1
          exact h1
      have h2o : m2 ∈ qs t2 := by
        by_cases ht2 : t2 = t
        · subst ht2
          simp only [Function.update_same] at h2
          rw [hq]
          exact List.mem_cons_of_mem m h2
        · simp only [Function.update_noteq ht2] at h2
          exact h2
      exact hqok.2 t1 t2 m2 h1o h2o
    · intro t2
      by_cases ht2 : t2 = t
      · subst ht2
        simp only [Function.update_same]
        have := hqok.1 t2
        rw [hq] at this
        exact (List.nodup_cons.mp this).1
      · simp only [Function.update_noteq ht2]
        intro hmem
        exact ht2 (hqok.2 t2 t m hmem hmq)
    · rw [if_pos rfl]
      exact hfresh t m hmq
  | writeChunk qs t m k =>
    dsimp only at hfresh hqok hholder
    obtain ⟨hnq, hk2, hcond⟩ := hholder
    have hk01 : k = 0 ∨ k = 1 := by omega
    refine ⟨?_, ?_, hqok, hnq, by omega, ?_⟩
    · rcases hk01 with hk0 | hk1
      · subst hk0
        rw [if_neg (by omega)] at hcond
        exact contig_append_last log m hcontig hcond
      · subst hk1
        rw [if_pos (by omega)] at hcond
        exact contig_append_fresh log m hcontig hcond
    · intro t2 m2 hm2
      rw [List.mem_append]
      rintro (hin | hin)
      · exact hfresh t2 m2 hm2 hin
      · simp at hin
        subst hin
        exact hnq t2 hm2
    · rw [if_neg (by omega)]
      exact List.getLast?_concat log
  | release qs t m =>
    dsimp only at hfresh hqok hholder
    rw [List.append_nil]
    exact ⟨hcontig, hfresh, hqok, trivial⟩

/-- Helper: a whole automaton run preserves the send invariant. -/
theorem sendInv_run (s₁ s₂ : LockState) (log₂ : List Nat)
    (hrun : SendRun s₁ s₂ log₂) :
    ∀ log₁, SendInv s₁ log₁ → SendInv s₂ (log₁ ++ log₂) := by
  induction hrun with
  | refl s => intro log₁ h; simpa using h
  | step s₁ s₂ s₃ out log hstep htail ih =>
    intro log₁ h
    have h2 := sendInv_step s₁ s₂ out log₁ hstep h
    have h3 := ih (log₁ ++ out) h2
    simpa [List.append_assoc] using h3

/-- C8: every control-stream write in the code is guarded by the single
session-wide `controlLock` — the event traces of `send`, `sendControl` and
`disconnect` acquire the lock before every write and release it after — and
consequently, in the lock automaton of any number of goroutines running
`send` concurrently (with globally distinct message ids), at most one
writer holds the lock at a time and the chunks of each framed message
occupy a contiguous span of the wire: no two messages ever interleave. -/
theorem control_lock_single_writer :
    (∀ wsOk m, guarded (sendLockTrace wsOk m) = true)
    ∧ (∀ wsOk errSome m mc, guarded (sendControlLockTrace wsOk errSome m mc) = true)
    ∧ (∀ wsOk mc, guarded (disconnectLockTrace wsOk mc) = true)
    ∧ (∀ (qs : Nat → List Nat) (s : LockState) (log : List Nat),
        (∀ t, (qs t).Nodup) →
        (∀ t₁ t₂ m, m ∈ qs t₁ → m ∈ qs t₂ → t₁ = t₂) →
        SendRun ⟨qs, none⟩ s log → Contig log) := by
  refine ⟨?_, ?_, ?_, ?_⟩
  · intro wsOk m
    cases wsOk <;> simp [sendLockTrace, guarded, guardedFrom]
  · intro wsOk errSome m mc
    cases wsOk <;> cases errSome <;>
      simp [sendControlLockTrace, disconnectLockTrace, guarded, guardedFrom]
  · intro wsOk mc
    cases wsOk <;> simp [disconnectLockTrace, guarded, guardedFrom]
  · intro qs s log hnodup hdisj hrun
    have hinit : SendInv ⟨qs, none⟩ [] := by
      refine ⟨contig_nil, ?_, ⟨hnodup, hdisj⟩, trivial⟩
      intro t m hm
      simp
    have := sendInv_run _ _ _ hrun [] hinit
    simpa using this.1

/-- C8 witness: the lock-discipline facts at concrete inputs, and the
automaton conclusion on a two-goroutine run in which goroutine 0 sends
message 1 and then goroutine 1 sends message 2 — the observed wire
[1, 1, 2, 2] is contiguous. -/
theorem control_lock_single_writer_witness :
    guarded (sendLockTrace true 5) = true ∧ Contig [1, 1, 2, 2] := by
  refine ⟨control_lock_single_writer.1 true 5, ?_⟩
  have hq0 : (fun t => if t = 0 then [1] else if t = 1 then [2] else []) 0 = 1 :: [] := rfl
  have hq1 : (Function.update (fun t => if t = 0 then [1] else if t = 1 then ([2] : List Nat) else []) 0 []) 1 = 2 :: [] := by
    rw [Function.update_noteq (by omega)]
    rfl
  refine control_lock_single_writer.2.2.2
    (fun t => if t = 0 then [1] else if t = 1 then [2] else [])
    ⟨Function.update (Function.update (fun t => if t = 0 then [1] else if t = 1 then [2] else []) 0 []) 1 [], none⟩
    [1, 1, 2, 2] ?_ ?_ ?_
  · intro t
    rcases t with _ | _ | t <;> simp
  · intro t₁ t₂ m h₁ h₂
    rcases t₁ with _ | _ | t₁ <;> rcases t₂ with _ | _ | t₂ <;> simp_all
  · exact SendRun.step _ _ _ [] _ (SendStep.acquire _ 0 1 [] hq0)
      (SendRun.step _ _ _ [1] _ (SendStep.writeChunk _ 0 1 1)
        (SendRun.step _ _ _ [1] _ (SendStep.writeChunk _ 0 1 0)
          (SendRun.step _ _ _ [] _ (SendStep.release _ 0 1)
            (SendRun.step _ _ _ [] _ (SendStep.acquire _ 1 2 [] hq1)
              (SendRun.step _ _ _ [2] _ (SendStep.writeChunk _ 1 2 1)
                (SendRun.step _ _ _ [2] _ (SendStep.writeChunk _ 1 2 0)
                  (SendRun.step _ _ _ [] _ (SendStep.release _ 1 2)
                    (SendRun.refl _))))))))

end Incus
